import Mathlib

/-
  Verification development for the go-httpsigner repository.

  This file gives a shallow embedding, in Lean 4, of the SigV4 signing and
  verification pipeline of the repository (packages `sigv4`, `utils`), and
  settles a list of claims about it.

  Modelling conventions:
  * Go strings are modelled as Lean `String`s; where Go works on raw bytes
    (query unescaping, hashing) we convert through an explicit UTF-8 encoder
    `strBytes` and work on `List Nat` byte lists.
  * SHA-256 itself lives in Go's standard library (`crypto/sha256`), outside
    this repository; it is threaded through the development as an explicit
    parameter `sha256 : List Nat → List Nat`.  The HMAC construction of
    `crypto/hmac` (block size 64) is embedded concretely on top of that
    parameter, mirroring `utils.HmacSHA256`.
  * Go mutation is modelled by explicit state passing: functions that mutate
    an `*http.Request` or the `*SigV4` receiver return the updated value.
  * Go `panic` (reachable in `getCredentialScope` and via `url.ParseQuery`
    in `getCanonicalQueryString`) is modelled as `Option.none` on the helper
    and mapped to a distinguished error string by the callers, since a panic
    aborts the call either way.
  * `unicode.IsLetter` is embedded faithfully for the Latin-1 range
    (U+0000..U+00FF), which covers every character this development reasons
    about; code points above U+00FF are conservatively classified as
    non-letters.  `strings.ToLower`/`strings.TrimSpace` are embedded for
    ASCII, which covers all header material in this development.
-/

namespace Sigv4

/-! ## Bytes, hex and UTF-8 helpers -/

/-- UTF-8 encoding of a single character, as byte values. -/
def charUTF8 (c : Char) : List Nat :=
  let n := c.toNat
  if n < 0x80 then [n]
  else if n < 0x800 then [0xC0 + n / 0x40, 0x80 + n % 0x40]
  else if n < 0x10000 then [0xE0 + n / 0x1000, 0x80 + n / 0x40 % 0x40, 0x80 + n % 0x40]
  else [0xF0 + n / 0x40000, 0x80 + n / 0x1000 % 0x40, 0x80 + n / 0x40 % 0x40, 0x80 + n % 0x40]

/-- The byte sequence of a Go string (Go strings are UTF-8 byte strings). -/
def strBytes (s : String) : List Nat :=
  (s.data.map charUTF8).flatten

/-- Lower-case hexadecimal digit, as used by `encoding/hex`. -/
def hexDigitLower (n : Nat) : Char :=
  if n < 10 then Char.ofNat (0x30 + n) else Char.ofNat (0x61 + (n - 10))

/-- Upper-case hexadecimal digit, as used by `fmt`'s `%X` verb. -/
def hexDigitUpper (n : Nat) : Char :=
  if n < 10 then Char.ofNat (0x30 + n) else Char.ofNat (0x41 + (n - 10))

/-- `hex.EncodeToString`: two lower-case hex digits per byte. -/
def hexEncodeLower (bs : List Nat) : String :=
  String.mk ((bs.map (fun b => [hexDigitLower (b / 16 % 16), hexDigitLower (b % 16)])).flatten)

/-- Upper-case hexadecimal digits of `n` (no leading zeros); fuel-driven. -/
def natHexUpperAux : Nat → Nat → List Char
  | 0, _ => []
  | _ + 1, 0 => []
  | fuel + 1, n => natHexUpperAux fuel (n / 16) ++ [hexDigitUpper (n % 16)]

/-- `fmt.Sprintf("%02X", n)`: upper-case hex, zero-padded to width two. -/
def natHexUpper2 (n : Nat) : List Char :=
  let ds := if n = 0 then [hexDigitUpper 0] else natHexUpperAux n n
  if ds.length < 2 then hexDigitUpper 0 :: ds else ds

/-! ## `strings.Split` on a single-character separator -/

/-- `strings.Split` for a one-element separator: splits at every occurrence,
never returns the empty list. -/
def splitSep {α : Type} [DecidableEq α] (c : α) : List α → List (List α)
  | [] => [[]]
  | x :: xs =>
    match splitSep c xs with
    | [] => [[]]
    | h :: t => if x = c then [] :: h :: t else (x :: h) :: t

/-- `strings.Split s (string of the single character c)`. -/
def goSplit (s : String) (c : Char) : List String :=
  (splitSep c s.data).map String.mk

/-- `strings.Cut` at the first occurrence of byte `sep`:
`(before, after, found)`. -/
def cutByte (sep : Nat) : List Nat → List Nat × List Nat × Bool
  | [] => ([], [], false)
  | x :: xs =>
    if x = sep then ([], xs, true)
    else
      match cutByte sep xs with
      | (b, a, f) => (x :: b, a, f)

/-! ## Sorting (Go `sort.Strings` on byte-wise lexicographic order) -/

/-- Lexicographic `≤` on byte/codepoint lists.  UTF-8 byte order coincides
with code-point order, so comparing `Char.toNat` lists matches Go's
byte-wise string order. -/
def lexLeNat : List Nat → List Nat → Bool
  | [], _ => true
  | _ :: _, [] => false
  | a :: as, b :: bs => if a < b then true else if b < a then false else lexLeNat as bs

/-- Byte-wise `≤` on Go strings. -/
def strLe (a b : String) : Bool :=
  lexLeNat (a.data.map Char.toNat) (b.data.map Char.toNat)

/-- Ordered insertion for `sortStrings`. -/
def insertStr (x : String) : List String → List String
  | [] => [x]
  | y :: ys => if strLe x y then x :: y :: ys else y :: insertStr x ys

/-- `sort.Strings`: sort a string list into byte-wise lexicographic order. -/
def sortStrings (l : List String) : List String :=
  l.foldr insertStr []

/-- Ordered insertion for byte lists. -/
def insertBytes (x : List Nat) : List (List Nat) → List (List Nat)
  | [] => [x]
  | y :: ys => if lexLeNat x y then x :: y :: ys else y :: insertBytes x ys

/-- `sort.Strings` for byte strings (query keys). -/
def sortByteLists (l : List (List Nat)) : List (List Nat) :=
  l.foldr insertBytes []

/-! ## ASCII case and whitespace helpers -/

/-- Lower-case an ASCII letter; other characters unchanged.  Embeds
`strings.ToLower` on the ASCII range used by this code base. -/
def asciiLowerChar (c : Char) : Char :=
  if 0x41 ≤ c.toNat ∧ c.toNat ≤ 0x5A then Char.ofNat (c.toNat + 0x20) else c

/-- `strings.ToLower`, restricted to ASCII input. -/
def goToLower (s : String) : String :=
  String.mk (s.data.map asciiLowerChar)

/-- ASCII whitespace as trimmed by `strings.TrimSpace`. -/
def isASCIISpace (c : Char) : Bool :=
  c.toNat = 0x20 ∨ c.toNat = 0x09 ∨ c.toNat = 0x0A ∨ c.toNat = 0x0B ∨
    c.toNat = 0x0C ∨ c.toNat = 0x0D

/-- `strings.TrimSpace`, restricted to ASCII whitespace. -/
def trimSpace (s : String) : String :=
  String.mk (((s.data.dropWhile isASCIISpace).reverse.dropWhile isASCIISpace).reverse)

/-! ## `net/http` header maps (`textproto.MIMEHeader`) -/

/-- `textproto.validHeaderFieldByte`: RFC 7230 token characters. -/
def validHeaderFieldChar (c : Char) : Bool :=
  let n := c.toNat
  (0x30 ≤ n ∧ n ≤ 0x39) ∨ (0x41 ≤ n ∧ n ≤ 0x5A) ∨ (0x61 ≤ n ∧ n ≤ 0x7A) ∨
    n = 0x21 ∨ n = 0x23 ∨ n = 0x24 ∨ n = 0x25 ∨ n = 0x26 ∨ n = 0x27 ∨
    n = 0x2A ∨ n = 0x2B ∨ n = 0x2D ∨ n = 0x2E ∨ n = 0x5E ∨ n = 0x5F ∨
    n = 0x60 ∨ n = 0x7C ∨ n = 0x7E

/-- Is `c` an ASCII lower-case letter? -/
def isLowerAZ (c : Char) : Bool := 0x61 ≤ c.toNat ∧ c.toNat ≤ 0x7A

/-- Is `c` an ASCII upper-case letter? -/
def isUpperAZ (c : Char) : Bool := 0x41 ≤ c.toNat ∧ c.toNat ≤ 0x5A

/-- The canonicalisation walk of `textproto.CanonicalMIMEHeaderKey`:
upper-case the first letter and every letter following a hyphen,
lower-case the rest. -/
def canonKeyAux : Bool → List Char → List Char
  | _, [] => []
  | upper, c :: rest =>
    let c2 :=
      if upper ∧ isLowerAZ c then Char.ofNat (c.toNat - 0x20)
      else if ¬ upper ∧ isUpperAZ c then Char.ofNat (c.toNat + 0x20)
      else c
    c2 :: canonKeyAux (c2 = Char.ofNat 0x2D) rest

/-- `textproto.CanonicalMIMEHeaderKey`: returns the argument unchanged when
it contains a non-token byte. -/
def canonicalMIMEHeaderKey (s : String) : String :=
  if s.data.all validHeaderFieldChar then String.mk (canonKeyAux true s.data) else s

/-- An `http.Header`: association list from canonical keys to value lists. -/
abbrev HeaderMap := List (String × List String)

/-- Raw lookup on the canonical key. -/
def headerLookup (h : HeaderMap) (ck : String) : Option (List String) :=
  (h.find? (fun kv => kv.1 = ck)).map (fun kv => kv.2)

/-- `http.Header.Get`: first value for the canonicalised key, else `""`. -/
def headerGet (h : HeaderMap) (key : String) : String :=
  match headerLookup h (canonicalMIMEHeaderKey key) with
  | some (v :: _) => v
  | _ => ""

/-- Replace the entry for `ck` in place, or append it. -/
def setAssoc (h : HeaderMap) (ck : String) (vs : List String) : HeaderMap :=
  if h.any (fun kv => kv.1 = ck) then
    h.map (fun kv => if kv.1 = ck then (ck, vs) else kv)
  else h ++ [(ck, vs)]

/-- `http.Header.Set`: replaces all values of the canonicalised key. -/
def headerSet (h : HeaderMap) (key val : String) : HeaderMap :=
  setAssoc h (canonicalMIMEHeaderKey key) [val]

/-- `http.Header.Del`: removes the canonicalised key. -/
def headerDel (h : HeaderMap) (key : String) : HeaderMap :=
  h.filter (fun kv => kv.1 ≠ canonicalMIMEHeaderKey key)

/-! ## The request view -/

/-- The parts of `net/url.URL` the signer reads. -/
structure URL where
  Path : String
  RawQuery : String
deriving DecidableEq

/-- Model of an `io.ReadCloser` request body: `data` is what reading will
still deliver, `readErr` an error the stream reports after `data` is
exhausted (`none` = clean EOF). -/
structure BodyState where
  data : List Nat
  readErr : Option String
deriving DecidableEq

/-- The parts of `http.Request` the signer and verifier read and write. -/
structure Request where
  Method : String
  URL : URL
  Host : String
  Header : HeaderMap
  Body : Option BodyState
deriving DecidableEq

/-! ## SigV4 URI encoding (`cr.go`) -/

/-- `unicode.IsLetter`, embedded faithfully on the Latin-1 range
(U+0000..U+00FF): ASCII letters plus U+00AA, U+00B5, U+00BA,
U+00C0..U+00D6, U+00D8..U+00F6, U+00F8..U+00FF.  Code points above
U+00FF (not reached by this development) are classified as non-letters. -/
def goIsLetter (c : Char) : Bool :=
  let n := c.toNat
  (0x41 ≤ n ∧ n ≤ 0x5A) ∨ (0x61 ≤ n ∧ n ≤ 0x7A) ∨ n = 0xAA ∨ n = 0xB5 ∨ n = 0xBA ∨
    (0xC0 ≤ n ∧ n ≤ 0xD6) ∨ (0xD8 ≤ n ∧ n ≤ 0xF6) ∨ (0xF8 ≤ n ∧ n ≤ 0xFF)

/-- `unicode.IsDigit` on the Latin-1 range: only the ASCII digits. -/
def goIsDigit (c : Char) : Bool := 0x30 ≤ c.toNat ∧ c.toNat ≤ 0x39

/-- `isUnreserved` from `cr.go`. -/
def isUnreserved (r : Char) : Bool :=
  goIsLetter r ∨ goIsDigit r ∨ r = '-' ∨ r = '.' ∨ r = '_' ∨ r = '~'

/-- `sigV4UriEncode` from `cr.go`: iterates the string's runes;
unreserved runes and the slash pass through, space becomes `%20`, every
other rune becomes `%` followed by `fmt`'s `%02X` of its code point. -/
def sigV4UriEncode (s : String) : String :=
  String.mk ((s.data.map (fun r =>
    if isUnreserved r ∨ r = '/' then [r]
    else if r = ' ' then ['%', '2', '0']
    else '%' :: natHexUpper2 r.toNat)).flatten)

/-! ## Canonical query string (`net/url.ParseQuery` + `url.QueryEscape`) -/

/-- Is byte `b` an ASCII hex digit? -/
def isHexByte (b : Nat) : Bool :=
  (0x30 ≤ b ∧ b ≤ 0x39) ∨ (0x41 ≤ b ∧ b ≤ 0x46) ∨ (0x61 ≤ b ∧ b ≤ 0x66)

/-- Value of an ASCII hex digit byte. -/
def unhexByte (b : Nat) : Nat :=
  if b ≤ 0x39 then b - 0x30 else if b ≤ 0x46 then b - 0x41 + 10 else b - 0x61 + 10

/-- `url.QueryUnescape` on bytes: `+` becomes space, `%XX` a byte,
a malformed escape is an error. -/
def queryUnescape : List Nat → Option (List Nat)
  | [] => some []
  | 0x2B :: rest => (queryUnescape rest).map (fun r => 0x20 :: r)
  | 0x25 :: a :: b :: rest =>
    if isHexByte a ∧ isHexByte b then
      (queryUnescape rest).map (fun r => (unhexByte a * 16 + unhexByte b) :: r)
    else none
  | 0x25 :: _ => none
  | x :: rest => (queryUnescape rest).map (fun r => x :: r)

/-- `url.shouldEscape` for query components: alphanumerics and `-._~`
pass through, everything else is escaped. -/
def shouldEscapeQuery (b : Nat) : Bool :=
  ¬ ((0x30 ≤ b ∧ b ≤ 0x39) ∨ (0x41 ≤ b ∧ b ≤ 0x5A) ∨ (0x61 ≤ b ∧ b ≤ 0x7A) ∨
      b = 0x2D ∨ b = 0x2E ∨ b = 0x5F ∨ b = 0x7E)

/-- `url.QueryEscape` on bytes: space becomes `+`, escaped bytes become
`%XX` with upper-case hex. -/
def queryEscape (l : List Nat) : String :=
  String.mk ((l.map (fun b =>
    if b = 0x20 then [Char.ofNat 0x2B]
    else if shouldEscapeQuery b then Char.ofNat 0x25 :: natHexUpper2 b
    else [Char.ofNat b])).flatten)

/-- Parsed query values: key ↦ values, in first-appearance order. -/
abbrev QueryMap := List (List Nat × List (List Nat))

/-- `m[key] = append(m[key], value)` for the query map. -/
def appendQuery (m : QueryMap) (k v : List Nat) : QueryMap :=
  if m.any (fun kv => kv.1 = k) then
    m.map (fun kv => if kv.1 = k then (kv.1, kv.2 ++ [v]) else kv)
  else m ++ [(k, [v])]

/-- The segment loop of `url.parseQuery`.  A semicolon or a bad escape sets
the error the caller (`getCanonicalQueryString`) panics on, so it yields
`none` here. -/
def parseQueryLoop : List (List Nat) → QueryMap → Option QueryMap
  | [], m => some m
  | seg :: rest, m =>
    if seg.contains 0x3B then none
    else if seg = [] then parseQueryLoop rest m
    else
      match cutByte 0x3D seg with
      | (k, v, _) =>
        match queryUnescape k, queryUnescape v with
        | some k2, some v2 => parseQueryLoop rest (appendQuery m k2 v2)
        | _, _ => none

/-- `url.ParseQuery` over the raw query bytes. -/
def parseQuery (q : List Nat) : Option QueryMap :=
  parseQueryLoop (splitSep 0x26 q) []

/-! ## Crypto layer (`utils/crypto.go` over an external SHA-256) -/

/-- `utils.HmacSHA256` = `crypto/hmac` over SHA-256 (block size 64):
`H((k ⊕ opad) ‖ H((k ⊕ ipad) ‖ data))` with the key hashed when longer
than a block and zero-padded to the block size. -/
def hmacSHA256 (sha256 : List Nat → List Nat) (key : List Nat) (data : String) : List Nat :=
  let k0 := if 64 < key.length then sha256 key else key
  let k := k0 ++ List.replicate (64 - k0.length) 0
  sha256 ((k.map (fun b => b ^^^ 0x5C)) ++ sha256 ((k.map (fun b => b ^^^ 0x36)) ++ strBytes data))

/-- `utils.Hash`: lower-case hex of the SHA-256 digest. -/
def goHash (sha256 : List Nat → List Nat) (b : List Nat) : String :=
  hexEncodeLower (sha256 b)

/-! ## RFC 3339 timestamps (`time.Parse(time.RFC3339Nano, ·)`) -/

/-- Is `c` an ASCII digit? -/
def isDigitCh (c : Char) : Bool := 0x30 ≤ c.toNat ∧ c.toNat ≤ 0x39

/-- Numeric value of an ASCII digit. -/
def digitVal (c : Char) : Nat := c.toNat - 0x30

/-- Gregorian leap years. -/
def isLeapYear (y : Nat) : Bool := y % 4 = 0 ∧ (y % 100 ≠ 0 ∨ y % 400 = 0)

/-- Days in a month, as validated by `time.Parse`. -/
def daysIn (mo y : Nat) : Nat :=
  if mo = 2 then (if isLeapYear y then 29 else 28)
  else if mo = 4 ∨ mo = 6 ∨ mo = 9 ∨ mo = 11 then 30
  else 31

/-- Consume the optional fractional-seconds part (`.` plus at least one
digit) of an RFC3339Nano timestamp, returning the remainder. -/
def consumeFrac (l : List Char) : Option (List Char) :=
  match l with
  | c :: rest =>
    if c = '.' then
      if (rest.takeWhile isDigitCh) = [] then none
      else some (rest.dropWhile isDigitCh)
    else some l
  | [] => some []

/-- Is `l` a valid RFC3339 zone suffix: `Z` or `±hh:mm`? -/
def zoneOK (l : List Char) : Bool :=
  match l with
  | [z] => z = 'Z'
  | [sg, a, b, c, d, e] =>
    (sg = '+' ∨ sg = '-') ∧ isDigitCh a ∧ isDigitCh b ∧ c = ':' ∧ isDigitCh d ∧ isDigitCh e
  | _ => false

/-- `time.Parse(time.RFC3339Nano, s)` followed by `.Date()`: validates the
shape `YYYY-MM-DThh:mm:ss[.frac](Z|±hh:mm)` with calendar range checks and
returns the wall-clock `(year, month, day)` exactly as written (the parsed
time keeps the offset of the string, so `.Date()` does no conversion). -/
def rfc3339Date (s : String) : Option (Nat × Nat × Nat) :=
  match s.data with
  | y1 :: y2 :: y3 :: y4 :: c1 :: m1 :: m2 :: c2 :: d1 :: d2 :: c3 ::
      h1 :: h2 :: c4 :: n1 :: n2 :: c5 :: s1 :: s2 :: rest =>
    if ([y1, y2, y3, y4, m1, m2, d1, d2, h1, h2, n1, n2, s1, s2].all isDigitCh)
        ∧ c1 = '-' ∧ c2 = '-' ∧ c3 = 'T' ∧ c4 = ':' ∧ c5 = ':' then
      let y := ((digitVal y1 * 10 + digitVal y2) * 10 + digitVal y3) * 10 + digitVal y4
      let mo := digitVal m1 * 10 + digitVal m2
      let d := digitVal d1 * 10 + digitVal d2
      let hh := digitVal h1 * 10 + digitVal h2
      let mi := digitVal n1 * 10 + digitVal n2
      let ss := digitVal s1 * 10 + digitVal s2
      if 1 ≤ mo ∧ mo ≤ 12 ∧ 1 ≤ d ∧ d ≤ daysIn mo y ∧ hh ≤ 23 ∧ mi ≤ 59 ∧ ss ≤ 59 then
        match consumeFrac rest with
        | some rest2 => if zoneOK rest2 then some (y, mo, d) else none
        | none => none
      else none
    else none
  | _ => none

/-- The `fmt.Sprintf("%d%d%d", YYYY, MM, DD)` rendering of the parsed
calendar day, shared verbatim by `getCredentialScope` (`sigv4.go`) and
`signingKey` (`s2s.go`): unpadded decimal year, month and day
concatenated. -/
def dateYYYYMMDD (dateString : String) : Option String :=
  (rfc3339Date dateString).map (fun ymd => toString ymd.1 ++ toString ymd.2.1 ++ toString ymd.2.2)

/-! ## The `SigV4` type (`sigv4.go`) -/

/-- `SigV4EnvConfig` from `sigv4.go`. -/
structure SigV4EnvConfig where
  ACCESS_KEY_ID : String
  SECRET_ACCESS_KEY : String
  REGION : String
  GlobalDir : String
  GlobalProfile : String
deriving DecidableEq

/-- The `SigV4` struct from `sigv4.go`. -/
structure SigV4 where
  org : String
  abbr : String
  service : String
  env : SigV4EnvConfig
  hashPayload : Bool
  secretRetrievalURL : String
deriving DecidableEq

/-- `(*SigV4).dateHeader`: `fmt.Sprintf("X-%s-Date", s.abbr)`. -/
def dateHeader (s : SigV4) : String := "X-" ++ s.abbr ++ "-Date"

/-- Error constants from `verify.go`. -/
def ERROR_INCORRECT_FORMAT_HEADER : String := "incorrectly formatted Authorization header"

/-- Error constant from `verify.go`. -/
def ERROR_INCORRECT_ALGORITHM : String := "incorrect algorithm found"

/-- Error constant from `verify.go`. -/
def ERROR_SIGNATURE_MISMATCH : String := "computed signature does not match received signature"

/-! ## Canonical request (`cr.go`) -/

/-- `getCanonicalAndSignedHeaders`: sets the synthetic `Host` header on the
request, then builds the sorted canonical header block and the sorted
signed-header list from every header present.  Returns the mutated
request as well. -/
def getCanonicalAndSignedHeaders (_s : SigV4) (req : Request) : String × String × Request :=
  let h := headerSet req.Header "Host" req.Host
  let ch := h.map (fun kv => goToLower kv.1 ++ ":" ++ trimSpace (String.intercalate "," kv.2))
  let sh := h.map (fun kv => goToLower kv.1)
  (String.intercalate "\n" (sortStrings ch), String.intercalate ";" (sortStrings sh),
    { req with Header := h })

/-- `getCanonicalURI`: the (possibly defaulted) absolute path, SigV4 URI
encoded. -/
def getCanonicalURI (_s : SigV4) (req : Request) : String :=
  sigV4UriEncode (if req.URL.Path = "" then "/" else req.URL.Path)

/-- `getCanonicalQueryString`: parse the raw query, sort the keys, re-escape
each key and value with `url.QueryEscape`, join pairs with `&`.  `none`
models the `panic(err)` on a `url.ParseQuery` error. -/
def getCanonicalQueryString (_s : SigV4) (req : Request) : Option String :=
  match parseQuery (strBytes req.URL.RawQuery) with
  | none => none
  | some m =>
    let keys := sortByteLists (m.map (fun kv => kv.1))
    let params := (keys.map (fun k =>
      match m.find? (fun kv => kv.1 = k) with
      | some kv => kv.2.map (fun v => queryEscape k ++ "=" ++ queryEscape v)
      | none => [])).flatten
    some (String.intercalate "&" params)

/-- `canonicalRequest`: headers first (mutating the request), then the body
is buffered through a `TeeReader`.  On a body read error the Go code
executes `return "", nil` — a **successful** return of the empty string —
before the body is reset, leaving the consumed stream in place; that is
the `some ("", …)` branch below.  On success the body is replaced by a
replay buffer holding the full bytes.  `none` models the query-parse
panic. -/
def canonicalRequest (sha256 : List Nat → List Nat) (s : SigV4) (req : Request) :
    Option (String × Request) :=
  match getCanonicalAndSignedHeaders s req with
  | (ch, sh, req1) =>
    match req1.Body with
    | some b =>
      match b.readErr with
      | some e => some ("", { req1 with Body := some ⟨[], some e⟩ })
      | none =>
        let req2 := { req1 with Body := some ⟨b.data, none⟩ }
        match getCanonicalQueryString s req2 with
        | none => none
        | some cq =>
          some (req2.Method ++ "\n" ++ getCanonicalURI s req2 ++ "\n" ++ cq ++ "\n" ++
            ch ++ "\n" ++ sh ++ "\n" ++ goHash sha256 b.data, req2)
    | none =>
      match getCanonicalQueryString s req1 with
      | none => none
      | some cq =>
        some (req1.Method ++ "\n" ++ getCanonicalURI s req1 ++ "\n" ++ cq ++ "\n" ++
          ch ++ "\n" ++ sh ++ "\n" ++ goHash sha256 [], req1)

/-! ## Credential scope, string-to-sign, signing key (`sigv4.go`, `s2s.go`) -/

/-- `getCredentialScope`: `"%d%d%d"-day/region/service`.  `none` models the
`panic(err)` on an unparsable date string. -/
def getCredentialScope (_s : SigV4) (dateString region service : String) : Option String :=
  (dateYYYYMMDD dateString).map (fun day => day ++ "/" ++ region ++ "/" ++ service)

/-- `stringToSign`: algorithm, timestamp, credential scope and hashed
canonical request, newline-joined.  `none` models the credential-scope
panic. -/
def stringToSign (sha256 : List Nat → List Nat) (s : SigV4)
    (dateString region service canonicalReq : String) : Option String :=
  (getCredentialScope s dateString region service).map (fun scope =>
    "AWS4-HMAC-SHA256" ++ "\n" ++ dateString ++ "\n" ++ scope ++ "\n" ++
      goHash sha256 (strBytes canonicalReq))

/-- `signingKey` (`s2s.go`): chained HMAC over day, region, service and the
literal `aws4_request`, keyed initially by `"AWS4" + accessKey`.  The Go
function returns the `time.Parse` error on a bad date; the exact error
text is not modelled. -/
def signingKey (sha256 : List Nat → List Nat) (_s : SigV4)
    (accessKey dateString region service : String) : Except String (List Nat) :=
  match dateYYYYMMDD dateString with
  | none => .error "invalid timestamp"
  | some day =>
    let key := strBytes ("AWS4" ++ accessKey)
    let k1 := hmacSHA256 sha256 key day
    let k2 := hmacSHA256 sha256 k1 region
    let k3 := hmacSHA256 sha256 k2 service
    .ok (hmacSHA256 sha256 k3 "aws4_request")

/-- `generateSignature`: lower-case hex of the final HMAC. -/
def generateSignature (sha256 : List Nat → List Nat) (_s : SigV4)
    (sk : List Nat) (s2s : String) : String :=
  hexEncodeLower (hmacSHA256 sha256 sk s2s)

/-- `SignHTTPRequest` (`sigv4.go`): sets the date header to `now`
(`time.Now()` in Go, passed explicitly here), builds the canonical
request, string-to-sign, signing key and signature, then attaches the
`Authorization` header.  Note the hard-coded
`SignedHeaders=content-type;host;x-sym-date` component and the
four-slash-part `Credential` component.  Go panics inside
`getCanonicalQueryString`/`getCredentialScope` are surfaced as
distinguished errors. -/
def SignHTTPRequest (sha256 : List Nat → List Nat) (s : SigV4) (now : String)
    (req : Request) : Except String Request :=
  let req0 := { req with Header := headerSet req.Header (dateHeader s) now }
  match canonicalRequest sha256 s req0 with
  | none => .error "panic: query parse"
  | some (cr, req1) =>
    let dateVal := headerGet req1.Header (dateHeader s)
    match stringToSign sha256 s dateVal s.env.REGION s.service cr with
    | none => .error "panic: invalid date"
    | some s2s =>
      match signingKey sha256 s s.env.SECRET_ACCESS_KEY dateVal s.env.REGION s.service with
      | .error e => .error e
      | .ok sk =>
        let signature := generateSignature sha256 s sk s2s
        match getCredentialScope s dateVal s.env.REGION s.service with
        | none => .error "panic: invalid date"
        | some scope =>
          let authHeader :=
            "AWS4-HMAC-SHA256" ++ " " ++
              ("Credential=" ++ s.env.ACCESS_KEY_ID ++ "/" ++ scope) ++ "," ++
              ("SignedHeaders=" ++ "content-type;host;x-sym-date") ++ "," ++
              ("Signature=" ++ signature)
          .ok { req1 with Header := headerSet req1.Header "Authorization" authHeader }

/-! ## Verification (`verify.go`) -/

/-- `AuthHeaderCredentials` from `verify.go`. -/
structure AuthHeaderCredentials where
  ACCESS_KEY_ID : String
  Date : String
  Region : String
  Service : String
deriving DecidableEq

/-- `AuthHeaders` from `verify.go`. -/
structure AuthHeaders where
  Algorithm : String
  Credential : AuthHeaderCredentials
  SignedHeaders : List String
  Signature : String
deriving DecidableEq

/-- The attempt loop of `retrieveSecretWithRetry`, with an explicit attempt
budget (`maxAttempts = 3` at the top-level wrapper).  The resolver models
one `retrieveSecret` network attempt, indexed by access-key id and
attempt number; the second component counts resolver calls made.  The
backoff sleeps and the never-cancelled `context.Background()` are not
observable and are not modelled. -/
def retrieveAttempts (resolver : String → Nat → Except String String) (id : String) :
    Nat → Nat → String → Except String String × Nat
  | 0, _, lastErr => (.error ("exceeded maximum attempts: " ++ lastErr), 0)
  | fuel + 1, attempt, _ =>
    match resolver id attempt with
    | .ok secret => (.ok secret, 1)
    | .error e =>
      match retrieveAttempts resolver id fuel (attempt + 1) e with
      | (r, n) => (r, n + 1)

/-- `retrieveSecretWithRetry`: up to 3 attempts; on exhaustion the last
attempt's error is wrapped as `exceeded maximum attempts: %w`.  (The
initial `lastErr` is Go's `nil`, unreachable because every path to the
wrap sets it first.) -/
def retrieveSecretWithRetry (resolver : String → Nat → Except String String)
    (id : String) : Except String String × Nat :=
  retrieveAttempts resolver id 3 0 ""

/-- `parseAuthHeaders` (`verify.go`): structural decoding of the
`Authorization` value (exactly two space parts, three comma parts, tagged
`Credential`/`SignedHeaders`/`Signature` components, and a `Credential`
value of exactly five slash parts whose fifth part is accepted
unvalidated), followed by the synchronous secret retrieval.  On success
the resolved secret is **written into `s.env.SECRET_ACCESS_KEY`** — the
mutated receiver is returned as the second component. -/
def parseAuthHeaders (resolver : String → Nat → Except String String) (s : SigV4)
    (str : String) : Except String AuthHeaders × SigV4 :=
  match goSplit str ' ' with
  | [algorithm, rest] =>
    match goSplit rest ',' with
    | [p0, p1, p2] =>
      match goSplit p0 '=' with
      | [c0, c1] =>
        if c0 = "Credential" then
          match goSplit c1 '/' with
          | [v0, v1, v2, v3, _v4] =>
            match goSplit p1 '=' with
            | [s0, s1] =>
              if s0 = "SignedHeaders" then
                match goSplit p2 '=' with
                | [g0, g1] =>
                  if g0 = "Signature" then
                    match (retrieveSecretWithRetry resolver v0).1 with
                    | .error e =>
                      (.error ("failed to retrieve secret (either server endpoint not working or returning unexpected data): " ++ e), s)
                    | .ok secret =>
                      if secret = "" then
                        (.error "failed to retrieve secret (either server endpoint not working or returning unexpected data): <nil>", s)
                      else
                        (.ok ⟨algorithm, ⟨v0, v1, v2, v3⟩, goSplit s1 ';', g1⟩,
                          { s with env := { s.env with SECRET_ACCESS_KEY := secret } })
                  else
                    (.error (ERROR_INCORRECT_FORMAT_HEADER ++ " OR " ++ "Header name 'Signature' incorrect"), s)
                | _ =>
                  (.error (ERROR_INCORRECT_FORMAT_HEADER ++ " OR " ++ "Header name 'Signature' incorrect"), s)
              else
                (.error (ERROR_INCORRECT_FORMAT_HEADER ++ " OR " ++ "Header name 'SignedHeaders' incorrect"), s)
            | _ =>
              (.error (ERROR_INCORRECT_FORMAT_HEADER ++ " OR " ++ "Header name 'SignedHeaders' incorrect"), s)
          | _ => (.error (ERROR_INCORRECT_FORMAT_HEADER ++ ": " ++ "Credential format error"), s)
        else
          (.error (ERROR_INCORRECT_FORMAT_HEADER ++ " OR " ++ "Header name 'Credential' incorrect"), s)
      | _ =>
        (.error (ERROR_INCORRECT_FORMAT_HEADER ++ " OR " ++ "Header name 'Credential' incorrect"), s)
    | _ => (.error ERROR_INCORRECT_FORMAT_HEADER, s)
  | _ => (.error ERROR_INCORRECT_FORMAT_HEADER, s)

/-- `VerifySignature` (`verify.go`): parse (and fetch the secret), check
the algorithm, recompute the canonical request on a clone stripped of
`Authorization` and `Accept-Encoding`, rebuild string-to-sign and signing
key from the **date header** and the **credential's region/service**, and
compare signatures.  Returns the result, the (mutated) receiver, and the
request with its body reassigned from the clone. -/
def VerifySignature (sha256 : List Nat → List Nat)
    (resolver : String → Nat → Except String String) (s : SigV4) (req : Request) :
    Except String Unit × SigV4 × Request :=
  match parseAuthHeaders resolver s (headerGet req.Header "Authorization") with
  | (.error e, s1) => (.error e, s1, req)
  | (.ok authHeaders, s1) =>
    let date := headerGet req.Header (dateHeader s1)
    if authHeaders.Algorithm ≠ "AWS4-HMAC-SHA256" then
      (.error ERROR_INCORRECT_ALGORITHM, s1, req)
    else
      let cloned := { req with Header := headerDel (headerDel req.Header "Authorization") "Accept-Encoding" }
      match canonicalRequest sha256 s1 cloned with
      | none => (.error "panic: query parse", s1, req)
      | some (cr, cloned1) =>
        let req1 := { req with Body := cloned1.Body }
        match stringToSign sha256 s1 date authHeaders.Credential.Region authHeaders.Credential.Service cr with
        | none => (.error "panic: invalid date", s1, req1)
        | some s2s =>
          match signingKey sha256 s1 s1.env.SECRET_ACCESS_KEY date authHeaders.Credential.Region authHeaders.Credential.Service with
          | .error e => (.error e, s1, req1)
          | .ok sk =>
            if generateSignature sha256 s1 sk s2s ≠ authHeaders.Signature then
              (.error ERROR_SIGNATURE_MISMATCH, s1, req1)
            else
              (.ok (), s1, req1)

/-! ## Harness: building incoming `Authorization` values

The following constructors are not part of the repository; they build the
wire shape of §4.4 of its specification (`"<alg> Credential=<akid>/<date>/
<region>/<service>/<term>,SignedHeaders=<sh>,Signature=<sig>"`) so that
claims about `parseAuthHeaders`/`VerifySignature` on incoming requests can
quantify over the components.  The nesting of the appends is chosen to
mirror the separators. -/

/-- The slash-joined credential value `akid/date/region/service/term`. -/
def mkCredVal (akid date region service term : String) : String :=
  akid ++ ("/" ++ (date ++ ("/" ++ (region ++ ("/" ++ (service ++ ("/" ++ term)))))))

/-- Everything after the algorithm and space. -/
def mkRest (akid date region service term sh sig : String) : String :=
  ("Credential=" ++ mkCredVal akid date region service term) ++
    ("," ++ (("SignedHeaders=" ++ sh) ++ ("," ++ ("Signature=" ++ sig))))

/-- A full `Authorization` header value in the five-slash-part wire shape. -/
def mkAuthValue (alg akid date region service term sh sig : String) : String :=
  alg ++ (" " ++ mkRest akid date region service term sh sig)

/-- Characters that keep a credential component transparent to
`parseAuthHeaders`' splitting: no space, comma, equals sign or slash. -/
def credOK (x : String) : Prop :=
  (' ' ∉ x.data) ∧ (',' ∉ x.data) ∧ ('=' ∉ x.data) ∧ ('/' ∉ x.data)

/-- Characters that keep a `SignedHeaders`/`Signature` component transparent
to `parseAuthHeaders`' splitting: no space, comma or equals sign. -/
def partOK (x : String) : Prop :=
  (' ' ∉ x.data) ∧ (',' ∉ x.data) ∧ ('=' ∉ x.data)

instance (x : String) : Decidable (credOK x) := by unfold credOK; infer_instance

instance (x : String) : Decidable (partOK x) := by unfold partOK; infer_instance

deriving instance DecidableEq for Except

/-! ## Concrete instances used to evaluate the claims -/

/-- A degenerate instantiation of the external SHA-256 parameter, used for
claims whose outcome does not depend on the hash function (with it every
HMAC is `[]` and every hex signature is `""`). -/
def trivialSHA : List Nat → List Nat := fun _ => []

/-- A concrete signer: org `SYM`, abbreviation `sym`, service `svc`,
resolved credentials `AKID`/`SEK`/region `r`. -/
def sSigner : SigV4 := ⟨"SYM", "sym", "svc", ⟨"AKID", "SEK", "r", "", ""⟩, false, ""⟩

/-- The matching verifier instance (empty env, as `NewSigV4Verifier`
builds it). -/
def sVerifier : SigV4 := ⟨"SYM", "sym", "svc", ⟨"", "", "", "", ""⟩, false, "http://secrets.example"⟩

/-- A resolver that always returns the signer's secret. -/
def resolverOK : String → Nat → Except String String := fun _ _ => .ok "SEK"

/-- A minimal request: `GET /x`, host `h`, no query, no headers, no body. -/
def reqSimple : Request := ⟨"GET", ⟨"/x", ""⟩, "h", [], none⟩

/-- A concrete signing instant. -/
def nowC1 : String := "2024-01-05T10:00:00Z"

/-- A signer with the default abbreviation `amz` (as `NewSigV4Signer` with
empty `abbr` would produce). -/
def sAmz : SigV4 := ⟨"AWS", "amz", "svc", ⟨"AKID", "SEK", "r", "", ""⟩, false, ""⟩

/-- A verifier with the default org/abbr (`AWS`/`amz`) and service `svc`. -/
def sVerAmz : SigV4 := ⟨"AWS", "amz", "svc", ⟨"", "", "", "", ""⟩, false, "http://secrets.example"⟩

/-- A resolver returning the secret `topsecret` for every access-key id. -/
def resolverTop : String → Nat → Except String String := fun _ _ => .ok "topsecret"

/-- A hand-crafted incoming `Authorization` value in the five-slash-part
shape `parseAuthHeaders` accepts, whose credential date `19990101` differs
from the request's date header, and whose signature is the one the
verifier recomputes under `trivialSHA` (the empty hex string). -/
def authCrafted : String :=
  "AWS4-HMAC-SHA256 Credential=AKID/19990101/r1/svc1/aws4_request,SignedHeaders=host,Signature="

/-- The incoming request carrying `authCrafted` and date header
`2024-01-05T10:00:00Z`. -/
def reqCrafted : Request :=
  ⟨"GET", ⟨"/x", ""⟩, "h",
    headerSet (headerSet [] "X-amz-Date" "2024-01-05T10:00:00Z") "Authorization" authCrafted,
    none⟩

/-- A request whose body delivers the bytes `[1, 2, 3]` and then fails with
a read error `boom`. -/
def reqBodyErr : Request := ⟨"POST", ⟨"/p", ""⟩, "h", [], some ⟨[1, 2, 3], some "boom"⟩⟩

/-- A base incoming request (date header set, no `Authorization` yet) used
to instantiate the independence theorems. -/
def reqBase : Request :=
  ⟨"GET", ⟨"/x", ""⟩, "h", headerSet [] "X-amz-Date" "2024-01-05T10:00:00Z", none⟩

/-- The request `SignHTTPRequest trivialSHA sSigner nowC1 reqSimple`
produces (date header, synthetic `Host`, and the four-slash-part
`Authorization` value with the empty `trivialSHA` signature). -/
def reqSignedC3 : Request :=
  ⟨"GET", ⟨"/x", ""⟩, "h",
    [("X-Sym-Date", ["2024-01-05T10:00:00Z"]), ("Host", ["h"]),
      ("Authorization",
        ["AWS4-HMAC-SHA256 Credential=AKID/202415/r/svc,SignedHeaders=content-type;host;x-sym-date,Signature="])],
    none⟩

/-! ## Helper lemmas -/

theorem data_append (a b : String) : (a ++ b).data = a.data ++ b.data := rfl

theorem mk_data (s : String) : String.mk s.data = s := rfl

theorem nm_data_append {c : Char} {a b : String} (ha : c ∉ a.data) (hb : c ∉ b.data) :
    c ∉ (a ++ b).data := by
  rw [data_append]
  simp only [List.mem_append]
  tauto

theorem splitSep_ne_nil {α : Type} [DecidableEq α] (c : α) (l : List α) :
    splitSep c l ≠ [] := by
  induction l with
  | nil => simp [splitSep]
  | cons x xs ih =>
    simp only [splitSep]
    match h : splitSep c xs with
    | [] => exact absurd h ih
    | h2 :: t =>
      by_cases hx : x = c <;> simp [hx]

theorem splitSep_no_sep {α : Type} [DecidableEq α] (c : α) (a : List α) (ha : c ∉ a) :
    splitSep c a = [a] := by
  induction a with
  | nil => rfl
  | cons x xs ih =>
    have hx : x ≠ c := fun h => ha (h ▸ List.mem_cons_self x xs)
    have hxs : c ∉ xs := fun h => ha (List.mem_cons_of_mem x h)
    simp [splitSep, ih hxs, hx]

theorem splitSep_sep_append {α : Type} [DecidableEq α] (c : α) (a b : List α) (ha : c ∉ a) :
    splitSep c (a ++ c :: b) = a :: splitSep c b := by
  induction a with
  | nil =>
    simp only [List.nil_append, splitSep]
    match h : splitSep c b with
    | [] => exact absurd h (splitSep_ne_nil c b)
    | h2 :: t => simp
  | cons x xs ih =>
    have hx : x ≠ c := fun h => ha (h ▸ List.mem_cons_self x xs)
    have hxs : c ∉ xs := fun h => ha (List.mem_cons_of_mem x h)
    show splitSep c (x :: (xs ++ c :: b)) = (x :: xs) :: splitSep c b
    simp only [splitSep]
    rw [ih hxs]
    simp [hx]

theorem headerLookup_setAssoc_self (h : HeaderMap) (ck : String) (vs : List String) :
    headerLookup (setAssoc h ck vs) ck = some vs := by
  unfold setAssoc
  by_cases hany : h.any (fun kv => kv.1 = ck)
  · simp only [hany, if_true]
    induction h with
    | nil => simp at hany
    | cons kv t ih =>
      by_cases hkv : kv.1 = ck
      · simp [headerLookup, List.find?, hkv]
      · have hany2 : t.any (fun kv => kv.1 = ck) := by
          simp only [List.any_cons] at hany
          rcases Bool.or_eq_true_iff.mp hany with h1 | h2
          · exact absurd (of_decide_eq_true h1) hkv
          · exact h2
        simpa [headerLookup, List.find?, hkv] using ih hany2
  · simp only [hany, if_false]
    induction h with
    | nil => simp [headerLookup, List.find?]
    | cons kv t ih =>
      have hkv : ¬ kv.1 = ck := by
        intro hc
        exact hany (by simp [List.any_cons, hc])
      have hany2 : ¬ t.any (fun kv => kv.1 = ck) := by
        intro hc
        exact hany (by simp [List.any_cons, hc])
      simpa [headerLookup, List.find?, hkv] using ih hany2

theorem headerGet_headerSet_self (h : HeaderMap) (k v : String) :
    headerGet (headerSet h k v) k = v := by
  unfold headerGet headerSet
  rw [headerLookup_setAssoc_self]

theorem find_map_replace (t : HeaderMap) (ck ck2 : String) (vs : List String)
    (hne : ck2 ≠ ck) :
    (t.map (fun kv => if kv.1 = ck then (ck, vs) else kv)).find? (fun kv => kv.1 = ck2) =
      t.find? (fun kv => kv.1 = ck2) := by
  induction t with
  | nil => rfl
  | cons kv t ih =>
    by_cases hkv : kv.1 = ck
    · have h1 : ¬ ((ck, vs).1 = ck2) := fun hc => hne (hc.symm)
      have h2 : ¬ (kv.1 = ck2) := fun hc => hne (hkv ▸ hc).symm
      rw [List.map_cons, hkv, if_pos rfl, List.find?_cons_of_neg _ (by simpa using h1),
        List.find?_cons_of_neg _ (by simpa using h2)]
      exact ih
    · rw [List.map_cons, if_neg hkv]
      by_cases h2 : kv.1 = ck2
      · rw [List.find?_cons_of_pos _ (by simpa using h2),
          List.find?_cons_of_pos _ (by simpa using h2)]
      · rw [List.find?_cons_of_neg _ (by simpa using h2),
          List.find?_cons_of_neg _ (by simpa using h2)]
        exact ih

theorem find_append_single (t : HeaderMap) (ck ck2 : String) (vs : List String)
    (hne : ck2 ≠ ck) :
    (t ++ [(ck, vs)]).find? (fun kv => kv.1 = ck2) = t.find? (fun kv => kv.1 = ck2) := by
  induction t with
  | nil =>
    have h1 : ¬ ((ck, vs).1 = ck2) := fun hc => hne hc.symm
    rw [List.nil_append, List.find?_cons_of_neg _ (by simpa using h1)]
  | cons kv t ih =>
    rw [List.cons_append]
    by_cases h2 : kv.1 = ck2
    · rw [List.find?_cons_of_pos _ (by simpa using h2),
        List.find?_cons_of_pos _ (by simpa using h2)]
    · rw [List.find?_cons_of_neg _ (by simpa using h2),
        List.find?_cons_of_neg _ (by simpa using h2)]
      exact ih

theorem headerLookup_setAssoc_ne (h : HeaderMap) (ck ck2 : String) (vs : List String)
    (hne : ck2 ≠ ck) : headerLookup (setAssoc h ck vs) ck2 = headerLookup h ck2 := by
  unfold headerLookup setAssoc
  by_cases hany : h.any (fun kv => kv.1 = ck)
  · simp only [hany, if_true, find_map_replace h ck ck2 vs hne]
  · simp only [hany, Bool.false_eq_true, if_false, find_append_single h ck ck2 vs hne]

theorem headerGet_headerSet_ne (h : HeaderMap) (k k2 v : String)
    (hne : canonicalMIMEHeaderKey k2 ≠ canonicalMIMEHeaderKey k) :
    headerGet (headerSet h k v) k2 = headerGet h k2 := by
  unfold headerGet headerSet
  rw [headerLookup_setAssoc_ne _ _ _ _ hne]

theorem filter_map_replace (t : HeaderMap) (ck : String) (vs : List String) :
    (t.map (fun kv => if kv.1 = ck then (ck, vs) else kv)).filter (fun kv => kv.1 ≠ ck) =
      t.filter (fun kv => kv.1 ≠ ck) := by
  induction t with
  | nil => rfl
  | cons kv t ih =>
    by_cases hkv : kv.1 = ck
    · have h1 : ¬ ((ck, vs).1 ≠ ck) := by simp
      have h2 : ¬ (kv.1 ≠ ck) := by simp [hkv]
      rw [List.map_cons, hkv, if_pos rfl, List.filter_cons_of_neg (by simp),
        List.filter_cons_of_neg (by simpa using h2)]
      exact ih
    · have h2 : (kv.1 ≠ ck) := hkv
      rw [List.map_cons, if_neg hkv, List.filter_cons_of_pos (by simp [h2]),
        List.filter_cons_of_pos (by simp [h2]), ih]

theorem filter_append_single (t : HeaderMap) (ck : String) (vs : List String) :
    (t ++ [(ck, vs)]).filter (fun kv => kv.1 ≠ ck) = t.filter (fun kv => kv.1 ≠ ck) := by
  rw [List.filter_append]
  have h1 : ([(ck, vs)].filter (fun kv => kv.1 ≠ ck)) = [] := by simp [List.filter]
  rw [h1, List.append_nil]

theorem headerDel_headerSet_same (h : HeaderMap) (k v : String) :
    headerDel (headerSet h k v) k = headerDel h k := by
  unfold headerDel headerSet setAssoc
  by_cases hany : h.any (fun kv => kv.1 = canonicalMIMEHeaderKey k)
  · simp only [hany, if_true, filter_map_replace]
  · simp only [hany, Bool.false_eq_true, if_false, filter_append_single]

theorem canonKey_dateHeader_ne_auth (s : SigV4) :
    canonicalMIMEHeaderKey (dateHeader s) ≠ canonicalMIMEHeaderKey "Authorization" := by
  have hauth : canonicalMIMEHeaderKey "Authorization" = "Authorization" := by decide
  rw [hauth]
  intro hEq
  have hhead : (canonicalMIMEHeaderKey (dateHeader s)).data.head? = some 'X' := by
    unfold canonicalMIMEHeaderKey
    by_cases hv : (dateHeader s).data.all validHeaderFieldChar
    · rw [if_pos hv]
      have e : canonKeyAux true ((dateHeader s).data) =
          'X' :: canonKeyAux false ('-' :: (s.abbr.data ++ "-Date".data)) := by
        rw [show (dateHeader s).data = 'X' :: ('-' :: (s.abbr.data ++ "-Date".data)) from rfl]
        rfl
      show (String.mk (canonKeyAux true (dateHeader s).data)).data.head? = some 'X'
      rw [show (String.mk (canonKeyAux true (dateHeader s).data)).data =
        canonKeyAux true (dateHeader s).data from rfl, e]
      rfl
    · rw [if_neg hv]
      rfl
  rw [hEq] at hhead
  exact absurd hhead (by decide)

theorem goSplit_space_mkAuthValue (alg akid d r sv tm sh sig : String)
    (halg : ' ' ∉ alg.data) (hrest : ' ' ∉ (mkRest akid d r sv tm sh sig).data) :
    goSplit (mkAuthValue alg akid d r sv tm sh sig) ' ' =
      [alg, mkRest akid d r sv tm sh sig] := by
  show (splitSep ' ' (mkAuthValue alg akid d r sv tm sh sig).data).map String.mk = _
  rw [show (mkAuthValue alg akid d r sv tm sh sig).data =
    alg.data ++ ' ' :: (mkRest akid d r sv tm sh sig).data from rfl]
  rw [splitSep_sep_append _ _ _ halg, splitSep_no_sep _ _ hrest]
  rfl

theorem goSplit_comma_mkRest (akid d r sv tm sh sig : String)
    (h1 : ',' ∉ ("Credential=" ++ mkCredVal akid d r sv tm).data)
    (h2 : ',' ∉ ("SignedHeaders=" ++ sh).data)
    (h3 : ',' ∉ ("Signature=" ++ sig).data) :
    goSplit (mkRest akid d r sv tm sh sig) ',' =
      ["Credential=" ++ mkCredVal akid d r sv tm, "SignedHeaders=" ++ sh, "Signature=" ++ sig] := by
  show (splitSep ',' (mkRest akid d r sv tm sh sig).data).map String.mk = _
  rw [show (mkRest akid d r sv tm sh sig).data =
    ("Credential=" ++ mkCredVal akid d r sv tm).data ++ ',' ::
      (("SignedHeaders=" ++ sh).data ++ ',' :: ("Signature=" ++ sig).data) from rfl]
  rw [splitSep_sep_append _ _ _ h1, splitSep_sep_append _ _ _ h2, splitSep_no_sep _ _ h3]
  rfl

theorem goSplit_eq_cred (akid d r sv tm : String)
    (h : '=' ∉ (mkCredVal akid d r sv tm).data) :
    goSplit ("Credential=" ++ mkCredVal akid d r sv tm) '=' =
      ["Credential", mkCredVal akid d r sv tm] := by
  show (splitSep '=' ("Credential=" ++ mkCredVal akid d r sv tm).data).map String.mk = _
  rw [show ("Credential=" ++ mkCredVal akid d r sv tm).data =
    "Credential".data ++ '=' :: (mkCredVal akid d r sv tm).data from rfl]
  rw [splitSep_sep_append _ _ _ (by decide), splitSep_no_sep _ _ h]
  rfl

theorem goSplit_slash_credVal (akid d r sv tm : String)
    (h1 : '/' ∉ akid.data) (h2 : '/' ∉ d.data) (h3 : '/' ∉ r.data)
    (h4 : '/' ∉ sv.data) (h5 : '/' ∉ tm.data) :
    goSplit (mkCredVal akid d r sv tm) '/' = [akid, d, r, sv, tm] := by
  show (splitSep '/' (mkCredVal akid d r sv tm).data).map String.mk = _
  rw [show (mkCredVal akid d r sv tm).data =
    akid.data ++ '/' :: (d.data ++ '/' :: (r.data ++ '/' :: (sv.data ++ '/' :: tm.data))) from rfl]
  rw [splitSep_sep_append _ _ _ h1, splitSep_sep_append _ _ _ h2,
    splitSep_sep_append _ _ _ h3, splitSep_sep_append _ _ _ h4, splitSep_no_sep _ _ h5]
  rfl

theorem goSplit_eq_signedHeaders (sh : String) (h : '=' ∉ sh.data) :
    goSplit ("SignedHeaders=" ++ sh) '=' = ["SignedHeaders", sh] := by
  show (splitSep '=' ("SignedHeaders=" ++ sh).data).map String.mk = _
  rw [show ("SignedHeaders=" ++ sh).data = "SignedHeaders".data ++ '=' :: sh.data from rfl]
  rw [splitSep_sep_append _ _ _ (by decide), splitSep_no_sep _ _ h]
  rfl

theorem goSplit_eq_signature (sig : String) (h : '=' ∉ sig.data) :
    goSplit ("Signature=" ++ sig) '=' = ["Signature", sig] := by
  show (splitSep '=' ("Signature=" ++ sig).data).map String.mk = _
  rw [show ("Signature=" ++ sig).data = "Signature".data ++ '=' :: sig.data from rfl]
  rw [splitSep_sep_append _ _ _ (by decide), splitSep_no_sep _ _ h]
  rfl

theorem nm_mkCredVal {c : Char} (akid d r sv tm : String)
    (hc1 : c ∉ akid.data) (hc2 : c ∉ d.data) (hc3 : c ∉ r.data)
    (hc4 : c ∉ sv.data) (hc5 : c ∉ tm.data) (hsl : c ≠ '/') :
    c ∉ (mkCredVal akid d r sv tm).data := by
  have hsl2 : c ∉ ("/" : String).data := by
    simp only [show ("/" : String).data = ['/'] from rfl, List.mem_singleton]
    exact hsl
  unfold mkCredVal
  exact nm_data_append hc1 (nm_data_append hsl2 (nm_data_append hc2 (nm_data_append hsl2
    (nm_data_append hc3 (nm_data_append hsl2 (nm_data_append hc4
      (nm_data_append hsl2 hc5)))))))

/-- `parseAuthHeaders` on a well-formed five-slash-part `Authorization`
value: the structural parse succeeds, after which the outcome depends only
on the secret retrieval; on success the decoded fields are exactly the
components, and the resolved secret is written into the receiver's env. -/
theorem parseAuthHeaders_mkAuthValue (res : String → Nat → Except String String) (s : SigV4)
    (alg akid d r sv tm sh sig : String)
    (halg : ' ' ∉ alg.data) (hak : credOK akid) (hd : credOK d) (hr : credOK r)
    (hsv : credOK sv) (htm : credOK tm) (hsh : partOK sh) (hsig : partOK sig) :
    parseAuthHeaders res s (mkAuthValue alg akid d r sv tm sh sig) =
      (match (retrieveSecretWithRetry res akid).1 with
       | .error e =>
         (.error ("failed to retrieve secret (either server endpoint not working or returning unexpected data): " ++ e), s)
       | .ok secret =>
         if secret = "" then
           (.error "failed to retrieve secret (either server endpoint not working or returning unexpected data): <nil>", s)
         else
           (.ok ⟨alg, ⟨akid, d, r, sv⟩, goSplit sh ';', sig⟩,
             { s with env := { s.env with SECRET_ACCESS_KEY := secret } })) := by
  obtain ⟨ha1, ha2, ha3, ha4⟩ := hak
  obtain ⟨hd1, hd2, hd3, hd4⟩ := hd
  obtain ⟨hr1, hr2, hr3, hr4⟩ := hr
  obtain ⟨hs1, hs2, hs3, hs4⟩ := hsv
  obtain ⟨ht1, ht2, ht3, ht4⟩ := htm
  obtain ⟨hh1, hh2, hh3⟩ := hsh
  obtain ⟨hg1, hg2, hg3⟩ := hsig
  have hcv_sp : ' ' ∉ (mkCredVal akid d r sv tm).data :=
    nm_mkCredVal _ _ _ _ _ ha1 hd1 hr1 hs1 ht1 (by decide)
  have hcv_co : ',' ∉ (mkCredVal akid d r sv tm).data :=
    nm_mkCredVal _ _ _ _ _ ha2 hd2 hr2 hs2 ht2 (by decide)
  have hcv_eq : '=' ∉ (mkCredVal akid d r sv tm).data :=
    nm_mkCredVal _ _ _ _ _ ha3 hd3 hr3 hs3 ht3 (by decide)
  have hcp_sp : ' ' ∉ ("Credential=" ++ mkCredVal akid d r sv tm).data :=
    nm_data_append (by decide) hcv_sp
  have hcp_co : ',' ∉ ("Credential=" ++ mkCredVal akid d r sv tm).data :=
    nm_data_append (by decide) hcv_co
  have hsp_sp : ' ' ∉ ("SignedHeaders=" ++ sh).data := nm_data_append (by decide) hh1
  have hsp_co : ',' ∉ ("SignedHeaders=" ++ sh).data := nm_data_append (by decide) hh2
  have hgp_sp : ' ' ∉ ("Signature=" ++ sig).data := nm_data_append (by decide) hg1
  have hgp_co : ',' ∉ ("Signature=" ++ sig).data := nm_data_append (by decide) hg2
  have hrest_sp : ' ' ∉ (mkRest akid d r sv tm sh sig).data := by
    unfold mkRest
    exact nm_data_append hcp_sp (nm_data_append (by decide)
      (nm_data_append hsp_sp (nm_data_append (by decide) hgp_sp)))
  have e1 := goSplit_space_mkAuthValue alg akid d r sv tm sh sig halg hrest_sp
  have e2 := goSplit_comma_mkRest akid d r sv tm sh sig hcp_co hsp_co hgp_co
  have e3 := goSplit_eq_cred akid d r sv tm hcv_eq
  have e4 := goSplit_slash_credVal akid d r sv tm ha4 hd4 hr4 hs4 ht4
  have e5 := goSplit_eq_signedHeaders sh hh3
  have e6 := goSplit_eq_signature sig hg3
  simp only [parseAuthHeaders, e1, e2, e3, e4, e5, e6, if_pos rfl, if_true]

/-- The verification verdict (`.1` of `VerifySignature`) depends only on the
parsed algorithm, credential region/service, signature, the date header,
and the request minus its `Authorization`/`Accept-Encoding` headers — not
on the credential's `Date` or the decoded `SignedHeaders` list. -/
theorem VerifySignature_fst_congr (sha : List Nat → List Nat)
    (res : String → Nat → Except String String) (s : SigV4) (req1 req2 : Request)
    (ah1 ah2 : AuthHeaders) (s1 : SigV4)
    (hp1 : parseAuthHeaders res s (headerGet req1.Header "Authorization") = (.ok ah1, s1))
    (hp2 : parseAuthHeaders res s (headerGet req2.Header "Authorization") = (.ok ah2, s1))
    (halg : ah1.Algorithm = ah2.Algorithm)
    (hreg : ah1.Credential.Region = ah2.Credential.Region)
    (hsvc : ah1.Credential.Service = ah2.Credential.Service)
    (hsgn : ah1.Signature = ah2.Signature)
    (hdate : headerGet req1.Header (dateHeader s1) = headerGet req2.Header (dateHeader s1))
    (hcl : headerDel (headerDel req1.Header "Authorization") "Accept-Encoding" =
      headerDel (headerDel req2.Header "Authorization") "Accept-Encoding")
    (hMethod : req1.Method = req2.Method) (hURL : req1.URL = req2.URL)
    (hHost : req1.Host = req2.Host) (hBody : req1.Body = req2.Body) :
    (VerifySignature sha res s req1).1 = (VerifySignature sha res s req2).1 := by
  have hclone :
      ({ req1 with Header := headerDel (headerDel req1.Header "Authorization") "Accept-Encoding" } : Request) =
      { req2 with Header := headerDel (headerDel req2.Header "Authorization") "Accept-Encoding" } := by
    cases req1
    cases req2
    simp only at hMethod hURL hHost hBody hcl
    simp [hMethod, hURL, hHost, hBody, hcl]
  unfold VerifySignature
  rw [hp1, hp2]
  simp only [halg, hreg, hsvc, hsgn, hclone, hdate]
  by_cases hae : ah2.Algorithm ≠ "AWS4-HMAC-SHA256"
  · rw [if_pos hae, if_pos hae]
  · rw [if_neg hae, if_neg hae]
    cases hcr : canonicalRequest sha s1
        { req2 with Header := headerDel (headerDel req2.Header "Authorization") "Accept-Encoding" } with
    | none => rfl
    | some p =>
      obtain ⟨cr, cl1⟩ := p
      simp only
      cases hs2s : stringToSign sha s1 (headerGet req2.Header (dateHeader s1))
          ah2.Credential.Region ah2.Credential.Service cr with
      | none => rfl
      | some s2s =>
        simp only
        cases hsk : signingKey sha s1 s1.env.SECRET_ACCESS_KEY (headerGet req2.Header (dateHeader s1))
            ah2.Credential.Region ah2.Credential.Service with
        | error e => rfl
        | ok sk =>
          simp only
          by_cases hcmp : generateSignature sha s1 sk s2s ≠ ah2.Signature
          · rw [if_pos hcmp, if_pos hcmp]
          · rw [if_neg hcmp, if_neg hcmp]

/-! ## Claim theorems -/

/-- **C1** (code_bug): the sign/verify round trip fails on the code as it
stands.  For the concrete request `reqSimple`, signing context `sSigner`
and a resolver returning the signer's secret, verifying the signed request
returns the parse error `Credential format error`: `SignHTTPRequest` emits
a `Credential` with four slash-separated parts while `parseAuthHeaders`
demands five.  The repository's own test `Test_VerifySignature` asserts
this round trip succeeds. -/
theorem c1_round_trip_fails_on_code :
    (SignHTTPRequest trivialSHA sSigner nowC1 reqSimple).map
        (fun r => (VerifySignature trivialSHA resolverOK sVerifier r).1) =
      .ok (.error "incorrectly formatted Authorization header: Credential format error") := by
  decide

/-- **C2** (code_bug): the `Authorization` value produced by
`SignHTTPRequest` carries a `Credential` component of only **four**
slash-delimited parts with no `aws4_request` termination literal, although
the code's own comment documents five parts ending in `aws4_request` and
`parseAuthHeaders` requires exactly five (and therefore rejects the
produced value). -/
theorem c2_wire_format_four_parts :
    (SignHTTPRequest trivialSHA sSigner nowC1 reqSimple).map
        (fun r => headerGet r.Header "Authorization") =
      .ok "AWS4-HMAC-SHA256 Credential=AKID/202415/r/svc,SignedHeaders=content-type;host;x-sym-date,Signature=" ∧
    goSplit "AKID/202415/r/svc" '/' = ["AKID", "202415", "r", "svc"] ∧
    (parseAuthHeaders resolverOK sVerifier
        "AWS4-HMAC-SHA256 Credential=AKID/202415/r/svc,SignedHeaders=content-type;host;x-sym-date,Signature=").1 =
      .error "incorrectly formatted Authorization header: Credential format error" := by
  refine ⟨by decide, by decide, by decide⟩

/-- **C3** (counterexample): for a signer with the default abbreviation
`amz` and a request with no `Content-Type` header, the `SignedHeaders`
component placed in the `Authorization` header is the hard-coded
`content-type;host;x-sym-date`, while the signed-header list of the
canonical header block of that same request (date header set, as during
signing) is `host;x-amz-date`. -/
theorem c3_counterexample :
    (SignHTTPRequest trivialSHA sAmz nowC1 reqSimple).map
        (fun r => headerGet r.Header "Authorization") =
      .ok "AWS4-HMAC-SHA256 Credential=AKID/202415/r/svc,SignedHeaders=content-type;host;x-sym-date,Signature=" ∧
    (getCanonicalAndSignedHeaders sAmz
        { reqSimple with Header := headerSet reqSimple.Header (dateHeader sAmz) nowC1 }).2.1 =
      "host;x-amz-date" ∧
    ("content-type;host;x-sym-date" : String) ≠ "host;x-amz-date" := by
  refine ⟨by decide, by decide, by decide⟩

/-- **C4** (code_bug): the calendar-day component shared by
`getCredentialScope` and `signingKey` (the `dateYYYYMMDD` rendering,
`fmt.Sprintf("%d%d%d", YYYY, MM, DD)` in the source) renders 2024-01-05 as
the unpadded `"202415"`, not the fixed-width `"20240105"` that the claim
(and the code's own comments) require. -/
theorem c4_unpadded_date :
    dateYYYYMMDD "2024-01-05T00:00:00Z" = some "202415" ∧
    getCredentialScope sSigner "2024-01-05T00:00:00Z" "r" "svc" = some "202415/r/svc" ∧
    ("202415" : String) ≠ "20240105" := by
  refine ⟨by decide, by decide, by decide⟩

/-- **C5** (counterexample): the crafted request `reqCrafted` decodes to a
credential whose `Date` is `19990101`, while the signing key is derived
from the request's date header (whose day renders as `202415`); the
mismatch is never checked and `VerifySignature` returns success. -/
theorem c5_counterexample :
    (VerifySignature trivialSHA resolverTop sVerAmz reqCrafted).1 = .ok () ∧
    (parseAuthHeaders resolverTop sVerAmz (headerGet reqCrafted.Header "Authorization")).1 =
      .ok ⟨"AWS4-HMAC-SHA256", ⟨"AKID", "19990101", "r1", "svc1"⟩, ["host"], ""⟩ ∧
    dateYYYYMMDD (headerGet reqCrafted.Header (dateHeader sVerAmz)) = some "202415" ∧
    ("19990101" : String) ≠ "202415" := by
  refine ⟨by decide, by decide, by decide, by decide⟩

/-- **C6** (code_bug): `VerifySignature` (via `parseAuthHeaders`) writes the
secret fetched from the resolver into the shared verifier state: the
`SigV4` instance's `env.SECRET_ACCESS_KEY` field changes from `""` to the
resolved `"topsecret"` during the call. -/
theorem c6_secret_written_back :
    sVerAmz.env.SECRET_ACCESS_KEY = "" ∧
    (VerifySignature trivialSHA resolverTop sVerAmz reqCrafted).2.1.env.SECRET_ACCESS_KEY =
      "topsecret" := by
  refine ⟨rfl, by decide⟩

/-- **C8** (code_bug): on a body-read failure `canonicalRequest` executes
`return "", nil`: the result is a *successful* empty canonical string, and
the request's body afterwards delivers no bytes (the partially consumed
stream is left in place) instead of the original `[1, 2, 3]`. -/
theorem c8_body_error_swallowed :
    (canonicalRequest trivialSHA sSigner reqBodyErr).map (fun p => p.1) = some "" ∧
    (canonicalRequest trivialSHA sSigner reqBodyErr).map (fun p => p.2.Body) =
      some (some ⟨[], some "boom"⟩) ∧
    reqBodyErr.Body = some ⟨[1, 2, 3], some "boom"⟩ := by
  refine ⟨by decide, by decide, by decide⟩

/-- **C9** (code_bug): `sigV4UriEncode` classifies runes with
`unicode.IsLetter`/`IsDigit` and formats the rune's code point, so the
Latin-1 letter `é` passes through unencoded and `€` becomes the four-digit
`%20AC` — not the per-byte `%XX` (two upper-case hex digits per byte)
encoding the claim and the function's own comment require; ASCII input
(third conjunct) behaves as claimed. -/
theorem c9_unicode_not_byte_encoded :
    sigV4UriEncode "é" = "é" ∧ sigV4UriEncode "€" = "%20AC" ∧
    sigV4UriEncode "/examplebucket/my photo.jpg" = "/examplebucket/my%20photo.jpg" := by
  refine ⟨by decide, by decide, by decide⟩

/-- **C7** (confirmed): `retrieveSecretWithRetry` calls the underlying
resolver at most 3 times and stops at the first success: a resolver that
succeeds immediately is called once, one that succeeds on the second
attempt exactly twice; when all three attempts fail it is called exactly
3 times and the result wraps the last attempt's error in the
`exceeded maximum attempts` error. -/
theorem c7_retry_budget (res : String → Nat → Except String String) (id : String) :
    (retrieveSecretWithRetry res id).2 ≤ 3 ∧
    (∀ s0, res id 0 = .ok s0 → retrieveSecretWithRetry res id = (.ok s0, 1)) ∧
    (∀ e0 s1, res id 0 = .error e0 → res id 1 = .ok s1 →
      retrieveSecretWithRetry res id = (.ok s1, 2)) ∧
    (∀ e0 e1 e2, res id 0 = .error e0 → res id 1 = .error e1 → res id 2 = .error e2 →
      retrieveSecretWithRetry res id = (.error ("exceeded maximum attempts: " ++ e2), 3)) := by
  refine ⟨?_, ?_, ?_, ?_⟩
  · unfold retrieveSecretWithRetry
    cases h0 : res id 0 with
    | ok s0 => simp [retrieveAttempts, h0]
    | error e0 =>
      cases h1 : res id 1 with
      | ok s1 => simp [retrieveAttempts, h0, h1]
      | error e1 =>
        cases h2 : res id 2 with
        | ok s2 => simp [retrieveAttempts, h0, h1, h2]
        | error e2 => simp [retrieveAttempts, h0, h1, h2]
  · intro s0 h0
    simp [retrieveSecretWithRetry, retrieveAttempts, h0]
  · intro e0 s1 h0 h1
    simp [retrieveSecretWithRetry, retrieveAttempts, h0, h1]
  · intro e0 e1 e2 h0 h1 h2
    simp [retrieveSecretWithRetry, retrieveAttempts, h0, h1, h2]

/-- Witness for **C7**: a resolver succeeding on the 2nd attempt is called
exactly twice and yields the secret; an always-failing resolver is called
exactly 3 times and its last error is wrapped. -/
theorem c7_retry_budget_witness :
    retrieveSecretWithRetry (fun _ n => if n = 1 then .ok "s" else .error ("e" ++ toString n)) "id" =
      (.ok "s", 2) ∧
    retrieveSecretWithRetry (fun _ _ => .error "boom") "id" =
      (.error ("exceeded maximum attempts: " ++ "boom"), 3) :=
  ⟨(c7_retry_budget _ "id").2.2.1 ("e" ++ toString 0) "s" rfl rfl,
   (c7_retry_budget _ "id").2.2.2 "boom" "boom" "boom" rfl rfl rfl⟩

/-- **C3** (amended): whenever `SignHTTPRequest` succeeds, the
`SignedHeaders` component it places in the `Authorization` header is the
fixed literal `content-type;host;x-sym-date`, for every request, whatever
headers it carries. -/
theorem c3_amended_signedheaders_constant (sha : List Nat → List Nat) (s : SigV4)
    (now : String) (req req2 : Request)
    (h : SignHTTPRequest sha s now req = .ok req2) :
    ∃ scope sigv : String,
      headerGet req2.Header "Authorization" =
        "AWS4-HMAC-SHA256" ++ " " ++
          ("Credential=" ++ s.env.ACCESS_KEY_ID ++ "/" ++ scope) ++ "," ++
          ("SignedHeaders=" ++ "content-type;host;x-sym-date") ++ "," ++
          ("Signature=" ++ sigv) := by
  unfold SignHTTPRequest at h
  dsimp only at h
  split at h
  · simp at h
  · split at h
    · simp at h
    · split at h
      · simp at h
      · split at h
        · simp at h
        · rw [Except.ok.injEq] at h
          subst h
          exact ⟨_, _, headerGet_headerSet_self _ _ _⟩

/-- Witness for the amended **C3**: the concrete signed request
`reqSignedC3` carries the constant `SignedHeaders` literal. -/
theorem c3_amended_witness :
    ∃ scope sigv : String,
      headerGet reqSignedC3.Header "Authorization" =
        "AWS4-HMAC-SHA256" ++ " " ++
          ("Credential=" ++ sSigner.env.ACCESS_KEY_ID ++ "/" ++ scope) ++ "," ++
          ("SignedHeaders=" ++ "content-type;host;x-sym-date") ++ "," ++
          ("Signature=" ++ sigv) :=
  c3_amended_signedheaders_constant trivialSHA sSigner nowC1 reqSimple reqSignedC3 (by decide)

/-- **C5** (amended): the region and service used to derive the signing key
are taken verbatim from the decoded credential (so they cannot mismatch),
but the credential's embedded `Date` is never consulted: two incoming
requests identical except for the well-formed date inside the
`Credential` component produce the same verification verdict. -/
theorem c5_amended_credential_date_ignored (sha : List Nat → List Nat)
    (res : String → Nat → Except String String) (s : SigV4) (req : Request)
    (alg akid d1 d2 r sv tm sh sig : String)
    (halg : ' ' ∉ alg.data) (hak : credOK akid) (hd1 : credOK d1) (hd2 : credOK d2)
    (hr : credOK r) (hsv : credOK sv) (htm : credOK tm) (hsh : partOK sh) (hsig : partOK sig) :
    (VerifySignature sha res s
        { req with Header := (headerSet req.Header "Authorization" <| mkAuthValue alg akid d1 r sv tm sh sig) }).1 =
    (VerifySignature sha res s
        { req with Header := (headerSet req.Header "Authorization" <| mkAuthValue alg akid d2 r sv tm sh sig) }).1 := by
  have hp1 := parseAuthHeaders_mkAuthValue res s alg akid d1 r sv tm sh sig halg hak hd1 hr hsv htm hsh hsig
  have hp2 := parseAuthHeaders_mkAuthValue res s alg akid d2 r sv tm sh sig halg hak hd2 hr hsv htm hsh hsig
  cases hrr : (retrieveSecretWithRetry res akid).1 with
  | error e =>
    simp only [hrr] at hp1 hp2
    unfold VerifySignature
    dsimp only
    rw [headerGet_headerSet_self, headerGet_headerSet_self, hp1, hp2]
  | ok secret =>
    simp only [hrr] at hp1 hp2
    by_cases hsec : secret = ""
    · rw [if_pos hsec] at hp1 hp2
      unfold VerifySignature
      dsimp only
      rw [headerGet_headerSet_self, headerGet_headerSet_self, hp1, hp2]
    · rw [if_neg hsec] at hp1 hp2
      refine VerifySignature_fst_congr sha res s _ _
        ⟨alg, ⟨akid, d1, r, sv⟩, goSplit sh ';', sig⟩
        ⟨alg, ⟨akid, d2, r, sv⟩, goSplit sh ';', sig⟩
        { s with env := { s.env with SECRET_ACCESS_KEY := secret } }
        (by dsimp only; rw [headerGet_headerSet_self]; exact hp1)
        (by dsimp only; rw [headerGet_headerSet_self]; exact hp2)
        rfl rfl rfl rfl
        (by dsimp only
            rw [headerGet_headerSet_ne _ _ _ _ (canonKey_dateHeader_ne_auth _),
              headerGet_headerSet_ne _ _ _ _ (canonKey_dateHeader_ne_auth _)])
        (by dsimp only
            rw [headerDel_headerSet_same, headerDel_headerSet_same])
        rfl rfl rfl rfl

/-- Witness for the amended **C5**: swapping the credential date between
`19990101` and `20240105` does not change the concrete verification
verdict. -/
theorem c5_amended_witness :
    (VerifySignature trivialSHA resolverTop sVerAmz
        { reqBase with Header := (headerSet reqBase.Header "Authorization" <| mkAuthValue "AWS4-HMAC-SHA256" "AKID" "19990101" "r1" "svc1" "aws4_request" "host" "") }).1 =
    (VerifySignature trivialSHA resolverTop sVerAmz
        { reqBase with Header := (headerSet reqBase.Header "Authorization" <| mkAuthValue "AWS4-HMAC-SHA256" "AKID" "20240105" "r1" "svc1" "aws4_request" "host" "") }).1 :=
  c5_amended_credential_date_ignored trivialSHA resolverTop sVerAmz reqBase
    "AWS4-HMAC-SHA256" "AKID" "19990101" "20240105" "r1" "svc1" "aws4_request" "host" ""
    (by decide) (by decide) (by decide) (by decide) (by decide) (by decide) (by decide)
    (by decide) (by decide)

/-- **C10** (confirmed): the verification verdict is independent of the
`SignedHeaders` component: two incoming requests identical except for
their (well-formed) signed-header lists produce the same result — the
decoded list is never consulted during recomputation. -/
theorem c10_signedheaders_ignored (sha : List Nat → List Nat)
    (res : String → Nat → Except String String) (s : SigV4) (req : Request)
    (alg akid d r sv tm sh1 sh2 sig : String)
    (halg : ' ' ∉ alg.data) (hak : credOK akid) (hd : credOK d)
    (hr : credOK r) (hsv : credOK sv) (htm : credOK tm)
    (hsh1 : partOK sh1) (hsh2 : partOK sh2) (hsig : partOK sig) :
    (VerifySignature sha res s
        { req with Header := (headerSet req.Header "Authorization" <| mkAuthValue alg akid d r sv tm sh1 sig) }).1 =
    (VerifySignature sha res s
        { req with Header := (headerSet req.Header "Authorization" <| mkAuthValue alg akid d r sv tm sh2 sig) }).1 := by
  have hp1 := parseAuthHeaders_mkAuthValue res s alg akid d r sv tm sh1 sig halg hak hd hr hsv htm hsh1 hsig
  have hp2 := parseAuthHeaders_mkAuthValue res s alg akid d r sv tm sh2 sig halg hak hd hr hsv htm hsh2 hsig
  cases hrr : (retrieveSecretWithRetry res akid).1 with
  | error e =>
    simp only [hrr] at hp1 hp2
    unfold VerifySignature
    dsimp only
    rw [headerGet_headerSet_self, headerGet_headerSet_self, hp1, hp2]
  | ok secret =>
    simp only [hrr] at hp1 hp2
    by_cases hsec : secret = ""
    · rw [if_pos hsec] at hp1 hp2
      unfold VerifySignature
      dsimp only
      rw [headerGet_headerSet_self, headerGet_headerSet_self, hp1, hp2]
    · rw [if_neg hsec] at hp1 hp2
      refine VerifySignature_fst_congr sha res s _ _
        ⟨alg, ⟨akid, d, r, sv⟩, goSplit sh1 ';', sig⟩
        ⟨alg, ⟨akid, d, r, sv⟩, goSplit sh2 ';', sig⟩
        { s with env := { s.env with SECRET_ACCESS_KEY := secret } }
        (by dsimp only; rw [headerGet_headerSet_self]; exact hp1)
        (by dsimp only; rw [headerGet_headerSet_self]; exact hp2)
        rfl rfl rfl rfl
        (by dsimp only
            rw [headerGet_headerSet_ne _ _ _ _ (canonKey_dateHeader_ne_auth _),
              headerGet_headerSet_ne _ _ _ _ (canonKey_dateHeader_ne_auth _)])
        (by dsimp only
            rw [headerDel_headerSet_same, headerDel_headerSet_same])
        rfl rfl rfl rfl

/-- Witness for **C10**: swapping the `SignedHeaders` component between
`host` and `content-type;host;x-amz-date` does not change the concrete
verification verdict. -/
theorem c10_signedheaders_ignored_witness :
    (VerifySignature trivialSHA resolverTop sVerAmz
        { reqBase with Header := (headerSet reqBase.Header "Authorization" <| mkAuthValue "AWS4-HMAC-SHA256" "AKID" "20240105" "r1" "svc1" "aws4_request" "host" "") }).1 =
    (VerifySignature trivialSHA resolverTop sVerAmz
        { reqBase with Header := (headerSet reqBase.Header "Authorization" <| mkAuthValue "AWS4-HMAC-SHA256" "AKID" "20240105" "r1" "svc1" "aws4_request" "content-type;host;x-amz-date" "") }).1 :=
  c10_signedheaders_ignored trivialSHA resolverTop sVerAmz reqBase
    "AWS4-HMAC-SHA256" "AKID" "20240105" "r1" "svc1" "aws4_request" "host"
    "content-type;host;x-amz-date" ""
    (by decide) (by decide) (by decide) (by decide) (by decide) (by decide) (by decide)
    (by decide) (by decide)

end Sigv4
